import Mathlib

set_option maxRecDepth 8000
set_option linter.unusedVariables false

namespace Opemu

/-!  Shallow embedding of the opemu-linux trap hook (trap_hook.c) and of the
bit-manipulation emulator (bmi.c).  Stateful C code is embedded as explicit
state passing: the register snapshot is a value, a call to the original
handler is recorded as a value carrying the exact arguments it received, and
a write performed through a load helper is recorded as a (destination
register index, value) pair. -/

/-- Register snapshot of the faulting thread: the user-mode origin bit that
`user_mode(regs)` tests, plus the (abstract) remaining register contents. -/
structure Regs where
  user_mode : Bool
  content : Nat
deriving DecidableEq, Repr

/-- One invocation of the saved original handler `orig_do_error_trap`,
recording the exact arguments it was called with. -/
structure OrigCall where
  regs : Regs
  error_code : Int
  str : Nat
  trapnr : Nat
  signr : Int
deriving DecidableEq, Repr

/-- Embedding of `kernel_trap` (trap_hook.c lines 220-223): the body is
`return 0;` — a kernel-origin trap is never handled and the register state is
untouched. -/
def kernel_trap (regs : Regs) (trapnr : Nat) : Bool × Regs :=
  (false, regs)

/-- Embedding of `user_trap` (trap_hook.c lines 224-231).  `opemu_utrap` is
code of this repository that is not under src/, so it is abstracted as the
parameter `utrap`, which may rewrite the register state and says whether it
handled the fault. -/
def user_trap (utrap : Regs → Bool × Regs) (regs : Regs) (trapnr : Nat) :
    Bool × Regs :=
  if trapnr = 6 then
    let r := utrap regs
    if r.1 then (true, r.2) else (false, r.2)
  else
    (false, regs)

/-- Embedding of `fh_do_error_trap` (trap_hook.c lines 235-246): returns the
final register state together with the list of invocations of
`orig_do_error_trap` performed (each with the arguments it received). -/
def fh_do_error_trap (utrap : Regs → Bool × Regs) (regs : Regs)
    (error_code : Int) (str : Nat) (trapnr : Nat) (signr : Int) :
    Regs × List OrigCall :=
  if regs.user_mode then
    let r := user_trap utrap regs trapnr
    if r.1 then (r.2, [])
    else (r.2, [⟨r.2, error_code, str, trapnr, signr⟩])
  else
    let r := kernel_trap regs trapnr
    if r.1 then (r.2, [])
    else (r.2, [⟨r.2, error_code, str, trapnr, signr⟩])

/-- Whether the emulator handled the fault: the boolean that decides, inside
`fh_do_error_trap`, whether the original handler is skipped. -/
def trap_handled (utrap : Regs → Bool × Regs) (regs : Regs) (trapnr : Nat) :
    Bool :=
  if regs.user_mode then (user_trap utrap regs trapnr).1
  else (kernel_trap regs trapnr).1

/-- C2: a fault that is not (user-mode origin with trap number 6) is always
forwarded to `orig_do_error_trap` with all five arguments unmodified, the
register state is unchanged, and the outcome does not depend on the emulator
`utrap` at all (so emulation is not even attempted). -/
theorem fh_do_error_trap_forwards_ineligible (utrap : Regs → Bool × Regs)
    (regs : Regs) (error_code : Int) (str : Nat) (trapnr : Nat) (signr : Int)
    (h : regs.user_mode = false ∨ trapnr ≠ 6) :
    fh_do_error_trap utrap regs error_code str trapnr signr =
      (regs, [⟨regs, error_code, str, trapnr, signr⟩]) := by
  rcases h with h | h
  · simp [fh_do_error_trap, kernel_trap, h]
  · simp [fh_do_error_trap, user_trap, kernel_trap, h]

/-- C2 witness: a kernel-mode trap 6 and a user-mode trap 13 are both
forwarded untouched, even under an emulator that would handle anything. -/
theorem fh_do_error_trap_forwards_ineligible_witness :
    fh_do_error_trap (fun r => (true, r)) ⟨true, 42⟩ 0 7 13 4 =
      (⟨true, 42⟩, [⟨⟨true, 42⟩, 0, 7, 13, 4⟩]) ∧
    fh_do_error_trap (fun r => (true, r)) ⟨false, 42⟩ 0 7 6 4 =
      (⟨false, 42⟩, [⟨⟨false, 42⟩, 0, 7, 6, 4⟩]) :=
  ⟨fh_do_error_trap_forwards_ineligible _ _ _ _ _ _ (Or.inr (by decide)),
   fh_do_error_trap_forwards_ineligible _ _ _ _ _ _ (Or.inl rfl)⟩

/-- C9: every call to `fh_do_error_trap` invokes the original handler exactly
once when the emulator does not handle the fault, and exactly zero times when
it does — never both, never neither. -/
theorem fh_do_error_trap_exactly_one_outcome (utrap : Regs → Bool × Regs)
    (regs : Regs) (error_code : Int) (str : Nat) (trapnr : Nat) (signr : Int) :
    (fh_do_error_trap utrap regs error_code str trapnr signr).2.length =
      (if trap_handled utrap regs trapnr then 0 else 1) := by
  by_cases hu : regs.user_mode <;>
    by_cases hh : (user_trap utrap regs trapnr).1 <;>
      simp [fh_do_error_trap, trap_handled, kernel_trap, hu, hh]

/-!  Ftrace hook installation and removal (trap_hook.c lines 63-206 and
273-290).  The kernel services the code calls — register_kprobe,
ftrace_set_filter_ip, register_ftrace_function and their inverses — are
external to the repository and are abstracted as an oracle environment
recording whether each call succeeds. -/

/-- The mutable fields of `struct ftrace_hook` that the install path writes:
the resolved kernel address and the saved-original-function slot. -/
structure Hook where
  address : Nat
  original : Nat
deriving DecidableEq, Repr

/-- Oracle for the kernel services used during installation:
whether `register_kprobe` succeeds and the address it reports, the result of
`ftrace_set_filter_ip` at a given address, and the result of
`register_ftrace_function`. -/
structure KernelEnv where
  kprobe_ok : Bool
  kprobe_addr : Nat
  set_filter_err : Nat → Int
  register_ftrace_err : Int

/-- Embedding of `fh_resolve_hook_address` (trap_hook.c lines 63-90): when
`register_kprobe` fails the function returns 0 with the hook untouched; when
it succeeds the reported address is stored, 0 means -ENOENT, and otherwise
the original-function slot receives the address and 0 (success) is
returned. -/
def fh_resolve_hook_address (env : KernelEnv) (hook : Hook) : Int × Hook :=
  if env.kprobe_ok = false then
    (0, hook)
  else
    let hook2 : Hook := { hook with address := env.kprobe_addr }
    if hook2.address = 0 then
      (-2, hook2)
    else
      (0, { hook2 with original := hook2.address })

/-- Embedding of `fh_install_hook` (trap_hook.c lines 111-144): resolve the
address, then `ftrace_set_filter_ip`, then `register_ftrace_function`,
returning the first nonzero error, else 0. -/
def fh_install_hook (env : KernelEnv) (hook : Hook) : Int × Hook :=
  let r := fh_resolve_hook_address env hook
  if r.1 ≠ 0 then r
  else if env.set_filter_err r.2.address ≠ 0 then
    (env.set_filter_err r.2.address, r.2)
  else if env.register_ftrace_err ≠ 0 then
    (env.register_ftrace_err, r.2)
  else
    (0, r.2)

/-- Embedding of `fh_init` (trap_hook.c lines 273-283) specialised to the
one-element `demo_hooks` array the module installs: the error of
`fh_install_hooks` over that single hook — which is the error of
`fh_install_hook` on it — is returned unchanged; 0 means the module loads. -/
def fh_init (env : KernelEnv) : Int :=
  (fh_install_hook env { address := 0, original := 0 }).1

/-- C5 evidence: when `register_kprobe` fails but the later ftrace calls
succeed, `fh_resolve_hook_address` reports success (0) without resolving any
address, `fh_install_hook` returns 0, and `fh_init` returns 0 — the module
loads with a hook whose target address was never resolved, instead of
refusing to load with a nonzero error. -/
theorem fh_install_hook_kprobe_failure_reports_success :
    fh_resolve_hook_address ⟨false, 0, fun _ => 0, 0⟩ ⟨0, 0⟩ = (0, ⟨0, 0⟩) ∧
    fh_install_hook ⟨false, 0, fun _ => 0, 0⟩ ⟨0, 0⟩ = (0, ⟨0, 0⟩) ∧
    fh_init ⟨false, 0, fun _ => 0, 0⟩ = 0 := by
  refine ⟨rfl, rfl, rfl⟩



/-- Per-hook outcome oracle for `fh_install_hooks`: the error code that
installing hook number i yields (0 = success).  It abstracts the whole
`fh_install_hook` call on the i-th array entry. -/
def InstallOracle : Type := Nat → Int

/-- Embedding of the rollback loop of `fh_install_hooks` (trap_hook.c lines
187-192): `while (i != 0) fh_remove_hook(&hooks[--i]);` — starting from
index i it removes hooks i-1, i-2, ..., 0 from the installed set, returning
the final installed set and the sequence of removal calls made, in order. -/
def rollbackFrom : Nat → List Nat → List Nat × List Nat
  | 0, installed => (installed, [])
  | j + 1, installed =>
    let installed2 := installed.erase j
    let r := rollbackFrom j installed2
    (r.1, j :: r.2)

/-- Embedding of the install loop of `fh_install_hooks` (trap_hook.c lines
179-183): `for (i = 0; i < count; i++)` carried as a fuel argument (the
number of iterations still to run, `count - i`), with the list of hooks
installed so far in installation order.  Returns (error, hooks installed at
exit, removal calls made during rollback). -/
def fh_install_hooks_loop (inst : InstallOracle) :
    Nat → Nat → List Nat → Int × List Nat × List Nat
  | 0, i, installed => (0, installed, [])
  | fuel + 1, i, installed =>
    if inst i = 0 then
      fh_install_hooks_loop inst fuel (i + 1) (installed ++ [i])
    else
      let r := rollbackFrom i installed
      (inst i, r.1, r.2)

/-- Embedding of `fh_install_hooks` (trap_hook.c lines 174-193): run the
install loop from index 0 with nothing installed. -/
def fh_install_hooks (inst : InstallOracle) (count : Nat) :
    Int × List Nat × List Nat :=
  fh_install_hooks_loop inst count 0 []

/-- Rolling back from index j over exactly the hooks 0..j-1 removes them all,
in reverse installation order. -/
theorem rollbackFrom_range (j : Nat) :
    rollbackFrom j (List.range j) = ([], (List.range j).reverse) := by
  induction j with
  | zero => rfl
  | succ k ih =>
    have hnotin : k ∉ List.range k := by simp
    have herase : (List.range (k + 1)).erase k = List.range k := by
      rw [List.range_succ, List.erase_append_right _ hnotin,
        List.erase_cons_head, List.append_nil]
    calc rollbackFrom (k + 1) (List.range (k + 1))
        = ((rollbackFrom k ((List.range (k + 1)).erase k)).1,
           k :: (rollbackFrom k ((List.range (k + 1)).erase k)).2) := rfl
      _ = ([], (List.range (k + 1)).reverse) := by
          rw [herase, ih, List.range_succ]
          simp

/-- Loop invariant for `fh_install_hooks_loop`: started at index i with
exactly hooks 0..i-1 installed and fuel for the remaining iterations, the
call either returns 0 with hooks 0..(i+fuel)-1 installed and no removals, or
returns the failing nonzero error with no hook left installed and the
removal calls in reverse installation order. -/
theorem fh_install_hooks_loop_spec (inst : InstallOracle) :
    ∀ fuel i,
      (let r := fh_install_hooks_loop inst fuel i (List.range i)
       (r.1 = 0 → r.2.1 = List.range (i + fuel) ∧ r.2.2 = []) ∧
       (r.1 ≠ 0 → r.2.1 = [] ∧
          r.2.2 = (List.range r.2.2.length).reverse)) := by
  intro fuel
  induction fuel with
  | zero =>
    intro i
    exact ⟨fun _ => ⟨rfl, rfl⟩, fun h => absurd rfl h⟩
  | succ f ihf =>
    intro i
    by_cases h : inst i = 0
    · have hrec := ihf (i + 1)
      have hstep : fh_install_hooks_loop inst (f + 1) i (List.range i) =
          fh_install_hooks_loop inst f (i + 1) (List.range (i + 1)) := by
        simp [fh_install_hooks_loop, h, List.range_succ]
      rw [hstep]
      have harith : i + 1 + f = i + (f + 1) := by omega
      rw [harith] at hrec
      exact hrec
    · have hstep : fh_install_hooks_loop inst (f + 1) i (List.range i) =
          (inst i, (rollbackFrom i (List.range i)).1,
            (rollbackFrom i (List.range i)).2) := by
        simp [fh_install_hooks_loop, h]
      rw [hstep, rollbackFrom_range]
      refine ⟨fun h0 => absurd h0 h, fun _ => ⟨rfl, ?_⟩⟩
      simp

/-- C6: `fh_install_hooks` is all-or-nothing.  If it returns 0 then all
`count` hooks (indices 0..count-1) are installed and no removal happened; if
it returns a nonzero error then no hook of this call is left installed, and
the removal calls that achieved this happened in reverse installation order
(the decreasing sequence of the previously installed indices). -/
theorem fh_install_hooks_all_or_nothing (inst : InstallOracle) (count : Nat) :
    ((fh_install_hooks inst count).1 = 0 →
       (fh_install_hooks inst count).2.1 = List.range count ∧
       (fh_install_hooks inst count).2.2 = []) ∧
    ((fh_install_hooks inst count).1 ≠ 0 →
       (fh_install_hooks inst count).2.1 = [] ∧
       (fh_install_hooks inst count).2.2 =
         (List.range (fh_install_hooks inst count).2.2.length).reverse) := by
  have h := fh_install_hooks_loop_spec inst count 0
  simpa [fh_install_hooks] using h

/-- C6 witness: with three hooks whose third installation fails, the call
ends with nothing installed and removals [1, 0]; with three succeeding hooks
it ends with [0, 1, 2] installed. -/
theorem fh_install_hooks_all_or_nothing_witness :
    ((fh_install_hooks (fun i => if i = 2 then -22 else 0) 3).2.1 = [] ∧
       (fh_install_hooks (fun i => if i = 2 then -22 else 0) 3).2.2 =
         (List.range
           (fh_install_hooks (fun i => if i = 2 then -22 else 0) 3).2.2.length).reverse) ∧
    (fh_install_hooks (fun _ => 0) 3).2.1 = List.range 3 ∧
    (fh_install_hooks (fun _ => 0) 3).2.2 = [] :=
  ⟨(fh_install_hooks_all_or_nothing (fun i => if i = 2 then -22 else 0) 3).2
      (by decide),
   (fh_install_hooks_all_or_nothing (fun _ => 0) 3).1 (by decide)⟩


/-- Oracle for the kernel services used during removal: the results of
`unregister_ftrace_function` and of the disabling `ftrace_set_filter_ip`
call for hook number i. -/
structure RemoveEnv where
  unregister_err : Nat → Int
  filter_off_err : Nat → Int

/-- Embedding of `fh_remove_hook` (trap_hook.c lines 150-163).  The C
function returns void: their failures produce only log lines, which are the
whole result of this embedding — there is no error component to return. -/
def fh_remove_hook (env : RemoveEnv) (i : Nat) : List String :=
  (if env.unregister_err i ≠ 0
    then ["unregister_ftrace_function() failed"] else []) ++
  (if env.filter_off_err i ≠ 0
    then ["ftrace_set_filter_ip() failed"] else [])

/-- Loop of `fh_remove_hooks` (trap_hook.c lines 200-206), fuel-carried:
removes hooks i, i+1, ... unconditionally, collecting the indices on which
removal was attempted and the log lines produced. -/
def fh_remove_hooks_loop (env : RemoveEnv) : Nat → Nat → List Nat × List String
  | 0, _ => ([], [])
  | fuel + 1, i =>
    let l := fh_remove_hook env i
    let r := fh_remove_hooks_loop env fuel (i + 1)
    (i :: r.1, l ++ r.2)

/-- Embedding of `fh_remove_hooks` (trap_hook.c lines 200-206): also a void
function — the result is only the attempted indices and the log. -/
def fh_remove_hooks (env : RemoveEnv) (count : Nat) : List Nat × List String :=
  fh_remove_hooks_loop env count 0

/-- Embedding of `fh_exit` (trap_hook.c lines 286-290): remove the
one-element `demo_hooks` array, then log "module unloaded"; nothing can
abort it. -/
def fh_exit (env : RemoveEnv) : List String :=
  (fh_remove_hooks env 1).2 ++ ["module unloaded"]

/-- The removal loop attempts every index from i for fuel steps, whatever
the per-call failures are. -/
theorem fh_remove_hooks_loop_attempts (env : RemoveEnv) :
    ∀ fuel i, (fh_remove_hooks_loop env fuel i).1 = List.range' i fuel := by
  intro fuel
  induction fuel with
  | zero => intro i; rfl
  | succ f ihf =>
    intro i
    calc (fh_remove_hooks_loop env (f + 1) i).1
        = i :: (fh_remove_hooks_loop env f (i + 1)).1 := rfl
      _ = i :: List.range' (i + 1) f := by rw [ihf]
      _ = List.range' i (f + 1) := by rw [List.range'_succ]

/-- C7: hook removal never propagates an error.  For every pattern of
underlying failures, `fh_remove_hooks` still attempts removal of all `count`
hooks in order (failures only add log lines), and `fh_exit` always runs to
completion, its final log line being the unload message; the void return
types of `fh_remove_hook`, `fh_remove_hooks` and `fh_exit` are mirrored by
result types with no error component at all. -/
theorem fh_remove_hooks_best_effort (env : RemoveEnv) (count : Nat) :
    (fh_remove_hooks env count).1 = List.range count ∧
    (fh_exit env).getLast? = some "module unloaded" := by
  constructor
  · rw [fh_remove_hooks, fh_remove_hooks_loop_attempts, List.range_eq_range']
  · simp [fh_exit]


/-!  Bit-manipulation emulator (bmi.c).  `bmi_instruction` dispatches on
(opcode, simd prefix class, leading opcode map, and for 0xF3 the ModRM.reg
subfield) and performs register writes through `_load_m64` / `_load_m32`;
each such write is recorded as a (destination register index, value) pair,
in the order performed.  The operand values m64src / m64vsrc / m64dst that
`get_x64regs` resolves, the consumed count that `get_consumed` computes, and
the implicit multiplicand register that `mulx` reads are code of this
repository that is not under src/, so they enter the embedding as the
parameters src, vsrc, dst, consumed and rdx; the operation bodies
(`blsr64`, `pdep64`, ...) are likewise not under src/ and are modelled from
the spec below.  The simd prefix parameter is named `simd_pfx` here. -/

/-- Subtraction of 1 modulo 2^w: the wraparound of the C expression
`src - 1` on a w-bit unsigned integer. -/
def wrapSub1 (a w : Nat) : Nat :=
  (a + (2 ^ w - 1)) % 2 ^ w

/-- Modelled from the spec: `rorx` — dst = rotate-right(src, imm) at width
w.  The body of rorx64/rorx32 (bmi.h) is not in src/. -/
def rorx64 (src imm w : Nat) : Nat :=
  let s := imm % w
  ((src % 2 ^ w) >>> s ||| (src % 2 ^ w) <<< (w - s)) % 2 ^ w

/-- Modelled from the spec: `andn` — dst = ~src1 & src2, src1 being the
vvvv operand.  The body of andn64/andn32 (bmi.h) is not in src/. -/
def andn64 (src vsrc w : Nat) : Nat :=
  ((2 ^ w - 1) ^^^ (vsrc % 2 ^ w)) &&& (src % 2 ^ w)

/-- Modelled from the spec: `blsr` — dst = src & (src − 1).  The body of
blsr64/blsr32 (bmi.h) is not in src/. -/
def blsr64 (src w : Nat) : Nat :=
  (src % 2 ^ w) &&& wrapSub1 src w

/-- Modelled from the spec: `blsmsk` — dst = src ^ (src − 1).  The body of
blsmsk64/blsmsk32 (bmi.h) is not in src/. -/
def blsmsk64 (src w : Nat) : Nat :=
  ((src % 2 ^ w) ^^^ wrapSub1 src w) % 2 ^ w

/-- Modelled from the spec: `blsi` — dst = src & (−src).  The body of
blsi64/blsi32 (bmi.h) is not in src/. -/
def blsi64 (src w : Nat) : Nat :=
  (src % 2 ^ w) &&& ((2 ^ w - src % 2 ^ w) % 2 ^ w)

/-- Modelled from the spec: `bzhi` — dst = src1 with bits ≥ (src2 & 0xFF)
cleared.  The body of bzhi64/bzhi32 (bmi.h) is not in src/. -/
def bzhi64 (src vsrc w : Nat) : Nat :=
  (src % 2 ^ w) % 2 ^ (min (vsrc &&& 0xFF) w)

/-- Bit-serial scatter over the n low bits: each set bit of the mask m
receives, at its position, the next low bit of v. -/
def pdepAux : Nat → Nat → Nat → Nat
  | 0, _, _ => 0
  | n + 1, v, m =>
    if m % 2 = 1 then v % 2 + 2 * pdepAux n (v / 2) (m / 2)
    else 2 * pdepAux n v (m / 2)

/-- Bit-serial gather over the n low bits: each set bit of the mask m sends
the bit of v at its position to the next low result bit. -/
def pextAux : Nat → Nat → Nat → Nat
  | 0, _, _ => 0
  | n + 1, v, m =>
    if m % 2 = 1 then v % 2 + 2 * pextAux n (v / 2) (m / 2)
    else pextAux n (v / 2) (m / 2)

/-- Number of set bits among the n low bits. -/
def popcountAux : Nat → Nat → Nat
  | 0, _ => 0
  | n + 1, m => m % 2 + popcountAux n (m / 2)

/-- Modelled from the spec: `pdep` — scatter the low bits of the value into
the positions selected by the mask, at 64 bits.  The body of pdep64 (bmi.h)
is not in src/. -/
def pdep (v m : Nat) : Nat := pdepAux 64 v m

/-- Modelled from the spec: `pext` — gather the bits of the value selected
by the mask into the low result bits, at 64 bits.  The body of pext64
(bmi.h) is not in src/. -/
def pext (v m : Nat) : Nat := pextAux 64 v m

/-- Modelled from the spec: the mask keeping exactly as many low bits as m
has set bits (within 64 bits). -/
def popcount_mask (m : Nat) : Nat := 2 ^ popcountAux 64 m - 1

/-- Width-w pdep as dispatched by `bmi_instruction`: value from the vvvv
operand, mask from the r/m operand. -/
def pdep64 (src vsrc w : Nat) : Nat := pdepAux w (vsrc % 2 ^ w) (src % 2 ^ w)

/-- Width-w pext as dispatched by `bmi_instruction`. -/
def pext64 (src vsrc w : Nat) : Nat := pextAux w (vsrc % 2 ^ w) (src % 2 ^ w)

/-- Modelled from the spec: `mulx` — unsigned widening multiply of the r/m
operand with the implicit multiplicand register, yielding (high, low).  The
body of mulx64/mulx32 (bmi.h) is not in src/. -/
def mulx64 (src rdx w : Nat) : Nat × Nat :=
  ((src % 2 ^ w) * (rdx % 2 ^ w) / 2 ^ w, (src % 2 ^ w) * (rdx % 2 ^ w) % 2 ^ w)

/-- Modelled from the spec: `bextr` — start = src2[7:0], length = src2[15:8],
dst = the contiguous field extracted from src1.  The body of bextr64/bextr32
(bmi.h) is not in src/. -/
def bextr64 (src vsrc w : Nat) : Nat :=
  ((src % 2 ^ w) >>> (vsrc &&& 0xFF)) % 2 ^ min ((vsrc >>> 8) &&& 0xFF) w

/-- Modelled from the spec: `shlx` — logical left shift by (src2 mod w).
The body of shlx64/shlx32 (bmi.h) is not in src/. -/
def shlx64 (src vsrc w : Nat) : Nat :=
  ((src % 2 ^ w) <<< (vsrc % w)) % 2 ^ w

/-- Modelled from the spec: `shrx` — logical right shift by (src2 mod w).
The body of shrx64/shrx32 (bmi.h) is not in src/. -/
def shrx64 (src vsrc w : Nat) : Nat :=
  (src % 2 ^ w) >>> (vsrc % w)

/-- Modelled from the spec: `sarx` — arithmetic right shift by (src2 mod w):
a set sign bit shifts in ones.  The body of sarx64/sarx32 (bmi.h) is not in
src/. -/
def sarx64 (src vsrc w : Nat) : Nat :=
  let s := vsrc % w
  (src % 2 ^ w) >>> s +
    (if 2 ^ (w - 1) ≤ src % 2 ^ w then 2 ^ w - 2 ^ (w - s) else 0)

/-- The 32-bit operation family of bmi.c's else-branch: the spec collapses
the per-width duplicates into the width-parameterized forms at w = 32. -/
def rorx32 (src imm : Nat) : Nat := rorx64 src imm 32

/-- The 32-bit andn (see `rorx32`). -/
def andn32 (src vsrc : Nat) : Nat := andn64 src vsrc 32

/-- The 32-bit blsr (see `rorx32`). -/
def blsr32 (src : Nat) : Nat := blsr64 src 32

/-- The 32-bit blsmsk (see `rorx32`). -/
def blsmsk32 (src : Nat) : Nat := blsmsk64 src 32

/-- The 32-bit blsi (see `rorx32`). -/
def blsi32 (src : Nat) : Nat := blsi64 src 32

/-- The 32-bit bzhi (see `rorx32`). -/
def bzhi32 (src vsrc : Nat) : Nat := bzhi64 src vsrc 32

/-- The 32-bit pext (see `rorx32`). -/
def pext32 (src vsrc : Nat) : Nat := pext64 src vsrc 32

/-- The 32-bit pdep (see `rorx32`). -/
def pdep32 (src vsrc : Nat) : Nat := pdep64 src vsrc 32

/-- The 32-bit mulx (see `rorx32`). -/
def mulx32 (src rdx : Nat) : Nat × Nat := mulx64 src rdx 32

/-- The 32-bit bextr (see `rorx32`). -/
def bextr32 (src vsrc : Nat) : Nat := bextr64 src vsrc 32

/-- The 32-bit shlx (see `rorx32`). -/
def shlx32 (src vsrc : Nat) : Nat := shlx64 src vsrc 32

/-- The 32-bit sarx (see `rorx32`). -/
def sarx32 (src vsrc : Nat) : Nat := sarx64 src vsrc 32

/-- The 32-bit shrx (see `rorx32`). -/
def shrx32 (src vsrc : Nat) : Nat := shrx64 src vsrc 32


/-- Observable effect of one `bmi_instruction` call: the register writes
performed through `_load_m64` / `_load_m32` (destination register index,
value) in order, and the returned byte count (0 = not handled). -/
structure BmiEffect where
  writes : List (Nat × Nat)
  ret : Nat
deriving DecidableEq, Repr

/-- The switch of `bmi_instruction` (bmi.c lines 48-151 for the 64-bit
saved state, lines 164-267 for the 32-bit one), after the immediate byte has
been fetched and `ins_size += consumed` applied.  `modreg` and `num_dst` are
computed from ModRM as in lines 28-33; a recognized opcode whose simd
prefix / leading opcode tests fail hits the `break` and falls through to
`return ins_size` (line 269), while an opcode matching no case hits
`default: return 0`. -/
def bmi_core (is64 : Bool) (vexreg opcode modrm : Nat)
    (high_reg high_base : Bool) (osize leading_opcode simd_pfx : Nat)
    (imm ins_size : Nat) (src vsrc dst rdx : Nat) : BmiEffect :=
  let modreg := (modrm >>> 3) &&& 7
  let num_dst := (if high_reg then 8 else 0) + ((modrm >>> 3) &&& 7)
  let num_src := (if high_base then 8 else 0) + (modrm &&& 7)
  if is64 then
    if opcode = 0xF0 then
      if simd_pfx = 3 ∧ leading_opcode = 3 then
        ⟨[(num_dst, rorx64 src imm osize)], ins_size + 1⟩
      else ⟨[], ins_size⟩
    else if opcode = 0xF2 then
      if simd_pfx = 0 ∧ leading_opcode = 2 then
        ⟨[(num_dst, andn64 src vsrc osize)], ins_size⟩
      else ⟨[], ins_size⟩
    else if opcode = 0xF3 then
      if simd_pfx = 0 ∧ leading_opcode = 2 then
        if modreg = 1 then ⟨[(vexreg, blsr64 src osize)], ins_size⟩
        else if modreg = 2 then ⟨[(vexreg, blsmsk64 src osize)], ins_size⟩
        else if modreg = 3 then ⟨[(vexreg, blsi64 src osize)], ins_size⟩
        else ⟨[], ins_size⟩
      else ⟨[], ins_size⟩
    else if opcode = 0xF5 then
      if leading_opcode = 2 then
        if simd_pfx = 0 then ⟨[(num_dst, bzhi64 src vsrc osize)], ins_size⟩
        else if simd_pfx = 2 then ⟨[(num_dst, pext64 src vsrc osize)], ins_size⟩
        else if simd_pfx = 3 then ⟨[(num_dst, pdep64 src vsrc osize)], ins_size⟩
        else ⟨[], ins_size⟩
      else ⟨[], ins_size⟩
    else if opcode = 0xF6 then
      if simd_pfx = 3 ∧ leading_opcode = 2 then
        ⟨[(num_dst, (mulx64 src rdx osize).1), (vexreg, (mulx64 src rdx osize).2)],
          ins_size⟩
      else ⟨[], ins_size⟩
    else if opcode = 0xF7 then
      if leading_opcode = 2 then
        if simd_pfx = 0 then ⟨[(num_dst, bextr64 src vsrc osize)], ins_size⟩
        else if simd_pfx = 1 then ⟨[(num_dst, shlx64 src vsrc osize)], ins_size⟩
        else if simd_pfx = 2 then ⟨[(num_dst, sarx64 src vsrc osize)], ins_size⟩
        else if simd_pfx = 3 then ⟨[(num_dst, shrx64 src vsrc osize)], ins_size⟩
        else ⟨[], ins_size⟩
      else ⟨[], ins_size⟩
    else ⟨[], 0⟩
  else
    if opcode = 0xF0 then
      if simd_pfx = 3 ∧ leading_opcode = 3 then
        ⟨[(num_dst, rorx32 src imm)], ins_size + 1⟩
      else ⟨[], ins_size⟩
    else if opcode = 0xF2 then
      if simd_pfx = 0 ∧ leading_opcode = 2 then
        ⟨[(num_dst, andn32 src vsrc)], ins_size⟩
      else ⟨[], ins_size⟩
    else if opcode = 0xF3 then
      if simd_pfx = 0 ∧ leading_opcode = 2 then
        if modreg = 1 then ⟨[(vexreg, blsr32 src)], ins_size⟩
        else if modreg = 2 then ⟨[(vexreg, blsmsk32 src)], ins_size⟩
        else if modreg = 3 then ⟨[(vexreg, blsi32 src)], ins_size⟩
        else ⟨[], ins_size⟩
      else ⟨[], ins_size⟩
    else if opcode = 0xF5 then
      if leading_opcode = 2 then
        if simd_pfx = 0 then ⟨[(num_dst, bzhi32 src vsrc)], ins_size⟩
        else if simd_pfx = 2 then ⟨[(num_dst, pext32 src vsrc)], ins_size⟩
        else if simd_pfx = 3 then ⟨[(num_dst, pdep32 src vsrc)], ins_size⟩
        else ⟨[], ins_size⟩
      else ⟨[], ins_size⟩
    else if opcode = 0xF6 then
      if simd_pfx = 3 ∧ leading_opcode = 2 then
        ⟨[(num_dst, (mulx32 src rdx).1), (vexreg, (mulx32 src rdx).2)], ins_size⟩
      else ⟨[], ins_size⟩
    else if opcode = 0xF7 then
      if leading_opcode = 2 then
        if simd_pfx = 0 then ⟨[(num_dst, bextr32 src vsrc)], ins_size⟩
        else if simd_pfx = 1 then ⟨[(num_dst, shlx32 src vsrc)], ins_size⟩
        else if simd_pfx = 2 then ⟨[(num_dst, sarx32 src vsrc)], ins_size⟩
        else if simd_pfx = 3 then ⟨[(num_dst, shrx32 src vsrc)], ins_size⟩
        else ⟨[], ins_size⟩
      else ⟨[], ins_size⟩
    else ⟨[], 0⟩

/-- Embedding of `bmi_instruction` (bmi.c lines 11-270).  Before any
dispatch, both branches read the immediate byte at index
`consumed = get_consumed(modrm)` of the instruction byte buffer `bytep`
(lines 44-46 and 159-161): the embedding makes that read explicit through
the list lookup, and a buffer not defined at that index makes the whole
call undefined (`none`).  Then `ins_size += consumed` and the switch runs. -/
def bmi_instruction (is64 : Bool) (vexreg opcode modrm : Nat)
    (high_reg high_base : Bool) (osize leading_opcode simd_pfx : Nat)
    (bytep : List Nat) (ins_size consumed : Nat)
    (src vsrc dst rdx : Nat) : Option BmiEffect :=
  match bytep[consumed]? with
  | none => none
  | some imm =>
    some (bmi_core is64 vexreg opcode modrm high_reg high_base osize
      leading_opcode simd_pfx imm (ins_size + consumed) src vsrc dst rdx)


/-- C1 evidence: with a recognized opcode byte (0xF0, rorx) but a simd
prefix class that matches no case (0 instead of the required 3), the switch
case is entered, every inner test fails, the `break` falls through to
`return ins_size`, and the call returns the nonzero byte count 4 (= 3 + 1)
with no register write — it does not return 0 ("not handled").  Only an
opcode byte matching no case (here 0x99) reaches `default: return 0`. -/
theorem bmi_instruction_mismatched_prefix_nonzero :
    bmi_instruction true 0 0xF0 0xC0 false false 64 3 0 [0, 0] 3 1 5 6 7 8 =
      some ⟨[], 4⟩ ∧
    bmi_instruction true 0 0x99 0xC0 false false 64 3 0 [0, 0] 3 1 5 6 7 8 =
      some ⟨[], 0⟩ :=
  ⟨rfl, rfl⟩

/-- C3: for opcode 0xF3 with prefix class none (0) and map 0F38 (2), the
ModRM.reg field selects blsr (1), blsmsk (2) or blsi (3), and in each case
the single register write goes to the register indexed by the vvvv field
(`vexreg`) — not to the index derived from ModRM.reg or ModRM.rm — in the
64-bit and the 32-bit saved-state branches alike. -/
theorem bmi_instruction_blsx_dispatch (is64 : Bool) (vexreg modrm : Nat)
    (high_reg high_base : Bool) (osize : Nat) (bytep : List Nat)
    (ins_size consumed : Nat) (src vsrc dst rdx : Nat) (imm : Nat)
    (him : bytep[consumed]? = some imm) :
    ((modrm >>> 3) &&& 7 = 1 →
      bmi_instruction is64 vexreg 0xF3 modrm high_reg high_base osize 2 0
          bytep ins_size consumed src vsrc dst rdx =
        some ⟨[(vexreg, if is64 then blsr64 src osize else blsr32 src)],
          ins_size + consumed⟩) ∧
    ((modrm >>> 3) &&& 7 = 2 →
      bmi_instruction is64 vexreg 0xF3 modrm high_reg high_base osize 2 0
          bytep ins_size consumed src vsrc dst rdx =
        some ⟨[(vexreg, if is64 then blsmsk64 src osize else blsmsk32 src)],
          ins_size + consumed⟩) ∧
    ((modrm >>> 3) &&& 7 = 3 →
      bmi_instruction is64 vexreg 0xF3 modrm high_reg high_base osize 2 0
          bytep ins_size consumed src vsrc dst rdx =
        some ⟨[(vexreg, if is64 then blsi64 src osize else blsi32 src)],
          ins_size + consumed⟩) := by
  refine ⟨fun h => ?_, fun h => ?_, fun h => ?_⟩ <;>
    cases is64 <;>
      simp [bmi_instruction, him, bmi_core, h]

/-- C3 witness: modrm byte 0x08 has ModRM.reg = 1, so blsr runs and the
write goes to register 2 = vexreg. -/
theorem bmi_instruction_blsx_dispatch_witness :
    bmi_instruction true 2 0xF3 0x08 false false 64 2 0 [0] 3 0 5 6 7 8 =
      some ⟨[(2, blsr64 5 64)], 3⟩ :=
  (bmi_instruction_blsx_dispatch true 2 0x08 false false 64 [0] 3 0 5 6 7 8 0
    rfl).1 (by decide)

/-- The dispatch key combinations bmi.c recognizes: (opcode byte, simd
prefix class, leading opcode map, and for opcode 0xF3 the ModRM.reg
subfield), identical in the 64-bit and 32-bit branches. -/
def bmi_recognized (opcode leading_opcode simd_pfx modreg : Nat) : Prop :=
  (opcode = 0xF0 ∧ simd_pfx = 3 ∧ leading_opcode = 3) ∨
  (opcode = 0xF2 ∧ simd_pfx = 0 ∧ leading_opcode = 2) ∨
  (opcode = 0xF3 ∧ simd_pfx = 0 ∧ leading_opcode = 2 ∧
    (modreg = 1 ∨ modreg = 2 ∨ modreg = 3)) ∨
  (opcode = 0xF5 ∧ leading_opcode = 2 ∧
    (simd_pfx = 0 ∨ simd_pfx = 2 ∨ simd_pfx = 3)) ∨
  (opcode = 0xF6 ∧ simd_pfx = 3 ∧ leading_opcode = 2) ∨
  (opcode = 0xF7 ∧ leading_opcode = 2 ∧
    (simd_pfx = 0 ∨ simd_pfx = 1 ∨ simd_pfx = 2 ∨ simd_pfx = 3))

/-- C4: for every recognized instruction, the byte count returned by
`bmi_instruction` is the incoming ins_size plus the ModRM-dependent consumed
count, plus exactly one extra byte when the operation is rorx (opcode 0xF0,
the only one with an immediate). -/
theorem bmi_instruction_consumed_bytes (is64 : Bool)
    (vexreg opcode modrm : Nat) (high_reg high_base : Bool)
    (osize leading_opcode simd_pfx : Nat) (bytep : List Nat)
    (ins_size consumed : Nat) (src vsrc dst rdx : Nat) (imm : Nat)
    (him : bytep[consumed]? = some imm)
    (hrec : bmi_recognized opcode leading_opcode simd_pfx
      ((modrm >>> 3) &&& 7)) :
    ∃ e, bmi_instruction is64 vexreg opcode modrm high_reg high_base osize
        leading_opcode simd_pfx bytep ins_size consumed src vsrc dst rdx =
        some e ∧
      e.ret = ins_size + consumed + (if opcode = 0xF0 then 1 else 0) := by
  unfold bmi_instruction
  rw [him]
  refine ⟨_, rfl, ?_⟩
  rcases hrec with ⟨h1, h2, h3⟩ | ⟨h1, h2, h3⟩ | ⟨h1, h2, h3, hm | hm | hm⟩ |
      ⟨h1, h2, h3 | h3 | h3⟩ | ⟨h1, h2, h3⟩ | ⟨h1, h2, h3 | h3 | h3 | h3⟩ <;>
    subst h1 <;> cases is64 <;>
      simp [bmi_core, *]

/-- C4 witness: a recognized andn (opcode 0xF2) with ins_size 3 and
consumed 0 returns 3 + 0 + 0 bytes. -/
theorem bmi_instruction_consumed_bytes_witness :
    ∃ e, bmi_instruction true 1 0xF2 0xC0 false false 64 2 0 [7] 3 0
        5 6 7 8 = some e ∧
      e.ret = 3 + 0 + (if (0xF2 : Nat) = 0xF0 then 1 else 0) :=
  bmi_instruction_consumed_bytes true 1 0xF2 0xC0 false false 64 2 0 [7] 3 0
    5 6 7 8 7 rfl (Or.inr (Or.inl ⟨rfl, rfl, rfl⟩))

/-- C10: for every opcode value — with or without an immediate operand, and
also for the unrecognized default case — `bmi_instruction` reads the byte at
index `consumed` of the instruction byte buffer before dispatching, so the
call is defined exactly when the buffer is defined at that index. -/
theorem bmi_instruction_always_reads_imm (is64 : Bool)
    (vexreg opcode modrm : Nat) (high_reg high_base : Bool)
    (osize leading_opcode simd_pfx : Nat) (bytep : List Nat)
    (ins_size consumed : Nat) (src vsrc dst rdx : Nat) :
    (bmi_instruction is64 vexreg opcode modrm high_reg high_base osize
        leading_opcode simd_pfx bytep ins_size consumed src vsrc dst
        rdx).isSome
      ↔ consumed < bytep.length := by
  rcases Nat.lt_or_ge consumed bytep.length with h | h
  · rw [bmi_instruction, List.getElem?_eq_getElem h]
    simpa using h
  · rw [bmi_instruction, List.getElem?_eq_none h]
    simpa using Nat.not_lt.mpr h


/-- Gathering back a scattered value recovers it modulo 2 to the number of
mask bits: the bit-serial invariant behind the pdep/pext round trip. -/
theorem pextAux_pdepAux (n : Nat) :
    ∀ v m, pextAux n (pdepAux n v m) m = v % 2 ^ popcountAux n m := by
  induction n with
  | zero =>
    intro v m
    simp [pextAux, pdepAux, popcountAux, Nat.mod_one]
  | succ k ih =>
    intro v m
    by_cases h : m % 2 = 1
    · have e1 : pdepAux (k + 1) v m = v % 2 + 2 * pdepAux k (v / 2) (m / 2) := by
        simp [pdepAux, h]
      have e2 : ∀ w, pextAux (k + 1) w m =
          w % 2 + 2 * pextAux k (w / 2) (m / 2) := by
        intro w
        simp [pextAux, h]
      have e3 : popcountAux (k + 1) m = 1 + popcountAux k (m / 2) := by
        simp [popcountAux, h]
      have hmod : (v % 2 + 2 * pdepAux k (v / 2) (m / 2)) % 2 = v % 2 := by
        omega
      have hdiv : (v % 2 + 2 * pdepAux k (v / 2) (m / 2)) / 2 =
          pdepAux k (v / 2) (m / 2) := by
        omega
      rw [e1, e2, hmod, hdiv, ih, e3, pow_add, pow_one]
      rw [Nat.mod_mul]
    · have h0 : m % 2 = 0 := by omega
      have e1 : pdepAux (k + 1) v m = 2 * pdepAux k v (m / 2) := by
        simp [pdepAux, h]
      have e2 : ∀ w, pextAux (k + 1) w m = pextAux k (w / 2) (m / 2) := by
        intro w
        simp [pextAux, h]
      have e3 : popcountAux (k + 1) m = popcountAux k (m / 2) := by
        simp [popcountAux, h0]
      have hdiv : 2 * pdepAux k v (m / 2) / 2 = pdepAux k v (m / 2) := by
        omega
      rw [e1, e2, hdiv, ih, e3]

/-- C8: for all 64-bit values v and masks m, pext inverts pdep on the bits
the mask keeps: pext (pdep (v &&& popcount_mask m) m) m =
v &&& popcount_mask m, where popcount_mask m keeps exactly as many low bits
of v as m has set bits. -/
theorem pext_pdep_round_trip (v m : Nat) (hv : v < 2 ^ 64)
    (hm : m < 2 ^ 64) :
    pext (pdep (v &&& popcount_mask m) m) m = v &&& popcount_mask m := by
  have hand : ∀ x : Nat, x &&& popcount_mask m = x % 2 ^ popcountAux 64 m := by
    intro x
    rw [popcount_mask, Nat.and_pow_two_sub_one_eq_mod]
  rw [hand, pext, pdep, pextAux_pdepAux, Nat.mod_mod]

/-- C8 witness: the round trip at v = 0xDEAD and m = 0xF0F0. -/
theorem pext_pdep_round_trip_witness :
    pext (pdep (0xDEAD &&& popcount_mask 0xF0F0) 0xF0F0) 0xF0F0 =
      0xDEAD &&& popcount_mask 0xF0F0 :=
  pext_pdep_round_trip 0xDEAD 0xF0F0 (by norm_num) (by norm_num)

end Opemu
